import Mathlib

/-!
Verification of the NES/SNES-to-Atari joystick converter firmware.

The definitions below are a shallow embedding of the firmware source:
pure functions over explicit state, with machine integers modelled as
`Nat` (unsigned long arithmetic is taken modulo `2 ^ 32` where it can
wrap).  Raw controller input is modelled as a bit stream
`bits : Nat → Bool`, where `bits i` is the value the firmware's
`nesRead()` returns for bit index `i` (already inverted: `true` means
the button is pressed / the data line reads low).
-/

namespace NesToC64

/-! Constants from the firmware's `#define`s. -/

def AUTOFIRE_RATE_MILLIS_MAX : Nat := 150

def AUTOFIRE_RATE_MILLIS_MIN : Nat := 50

def AUTOFIRE_RATE_ADJUST_DELTA : Nat := 10

def MOUSE_MOVEMENT_THRESHOLD : Nat := 1

def SETTING_JOYPORT : Nat := 0

/-- Arduino pin numbers for joystick port 0 (labelled `JOY1_*` in the source). -/
def JOY1_UP : Nat := 8

def JOY1_DOWN : Nat := 9

def JOY1_LEFT : Nat := 10

def JOY1_RIGHT : Nat := 11

def JOY1_FIRE1 : Nat := 12

def JOY1_FIRE2 : Nat := 13

/-- Arduino pin numbers for joystick port 1 (labelled `JOY2_*` in the source). -/
def JOY2_UP : Nat := 2

def JOY2_DOWN : Nat := 3

def JOY2_LEFT : Nat := 4

def JOY2_RIGHT : Nat := 5

def JOY2_FIRE1 : Nat := 6

def JOY2_FIRE2 : Nat := 7

/-- Analog pin A4, used as the port-0 indicator LED. -/
def JOYPORT_0_LED : Nat := 18

/-- Analog pin A5, used as the port-1 indicator LED. -/
def JOYPORT_1_LED : Nat := 19

/-- Modulus of the Arduino `unsigned long` type (the numeral `2 ^ 32`). -/
def UINT32_MOD : Nat := 4294967296

/-!
## Controller protocol decoder

The firmware keeps the decoded controller report in global variables
that `nesReadButtons()` overwrites each cycle.  `DecodedState` packages
those globals; fields that a branch of `nesReadButtons()` does not
assign keep their previous value, which the embedding expresses by
updating a `prev` state.
-/

structure DecodedState where
  nesA : Bool
  nesB : Bool
  nesSelect : Bool
  nesStart : Bool
  nesUp : Bool
  nesDown : Bool
  nesLeft : Bool
  nesRight : Bool
  snesA : Bool
  snesB : Bool
  snesX : Bool
  snesY : Bool
  snesL : Bool
  snesR : Bool
  nesFire1 : Bool
  nesFire2 : Bool
  snesMode : Bool
  snesMouse : Bool
  mouseDirY : Bool
  mouseDY : Nat
  mouseDirX : Bool
  mouseDX : Nat
deriving DecidableEq

/-- A decoder state with every button released, as an idle baseline. -/
def idleDecoded : DecodedState :=
  { nesA := false, nesB := false, nesSelect := false, nesStart := false
    nesUp := false, nesDown := false, nesLeft := false, nesRight := false
    snesA := false, snesB := false, snesX := false, snesY := false
    snesL := false, snesR := false, nesFire1 := false, nesFire2 := false
    snesMode := false, snesMouse := false
    mouseDirY := false, mouseDY := 0, mouseDirX := false, mouseDX := 0 }

/-- `readMouseDelta()`: assembles a 7-bit magnitude, first bit read into
bit 6 of the result, via `delta |= (nesRead() << shift)`. -/
def readMouseDelta (bits : Nat → Bool) (start : Nat) : Nat :=
  let delta : Nat := 0
  let delta := delta ||| ((bits start).toNat <<< 6)
  let delta := delta ||| ((bits (start + 1)).toNat <<< 5)
  let delta := delta ||| ((bits (start + 2)).toNat <<< 4)
  let delta := delta ||| ((bits (start + 3)).toNat <<< 3)
  let delta := delta ||| ((bits (start + 4)).toNat <<< 2)
  let delta := delta ||| ((bits (start + 5)).toNat <<< 1)
  let delta := delta ||| (bits (start + 6)).toNat
  delta

/-- `nesReadButtons()`: reads the serial report and derives the logical
state.  Bit indices follow the comments in the source ($00–$1F). -/
def nesReadButtons (bits : Nat → Bool) (fireReversed : Bool)
    (prev : DecodedState) : DecodedState :=
  let nesA := bits 0
  let snesB := bits 0
  let nesB := bits 1
  let snesY := bits 1
  let nesSelect := bits 2
  let nesStart := bits 3
  let nesUp := bits 4
  let nesDown := bits 5
  let nesLeft := bits 6
  let nesRight := bits 7
  let snesA := bits 8
  let snesX := bits 9
  let snesL := bits 10
  let snesR := bits 11
  -- Check for SNES mouse signature, which is 0001 (bits $0C-$0F)
  let sigCount := (bits 12).toNat + (bits 13).toNat + (bits 14).toNat
  let snesMouse := (sigCount == 0) && bits 15
  if snesMouse then
    let mouseDirY := bits 16
    let mouseDY := readMouseDelta bits 17
    let mouseDirX := bits 24
    let mouseDX := readMouseDelta bits 25
    let nesFire1 := snesX
    let nesFire2 := snesA
    let nesLeft := if MOUSE_MOVEMENT_THRESHOLD < mouseDX then mouseDirX else nesLeft
    let nesRight := if MOUSE_MOVEMENT_THRESHOLD < mouseDX then !mouseDirX else nesRight
    let nesUp := if MOUSE_MOVEMENT_THRESHOLD < mouseDY then mouseDirY else nesUp
    let nesDown := if MOUSE_MOVEMENT_THRESHOLD < mouseDY then !mouseDirY else nesDown
    { prev with
      nesA, nesB, nesSelect := false, nesStart := false
      nesUp, nesDown, nesLeft, nesRight
      snesA, snesB, snesX, snesY, snesL := false, snesR := false
      nesFire1, nesFire2, snesMouse := true
      mouseDirY, mouseDY, mouseDirX, mouseDX }
  else
    -- NES controller will read the four extension bits as all true
    let snesMode := !(snesA && snesX && snesL && snesR)
    let nesFire1 := if snesMode then snesB else nesB
    let nesFire2 := if snesMode then snesA else nesA
    let snesA := if snesMode then snesA else false
    let snesX := if snesMode then snesX else false
    let snesL := if snesMode then snesL else false
    let snesR := if snesMode then snesR else false
    let temp := nesFire1
    let nesFire1 := if fireReversed then nesFire2 else nesFire1
    let nesFire2 := if fireReversed then temp else nesFire2
    { prev with
      nesA, nesB, nesSelect, nesStart, nesUp, nesDown, nesLeft, nesRight
      snesA, snesB, snesX, snesY, snesL, snesR
      nesFire1, nesFire2, snesMode, snesMouse := false }

/-- Modelled from the spec's words for comparison with `readMouseDelta`:
a plain base-2 value of 7 bits, most significant first. -/
def magnitude7 (bits : Nat → Bool) (start : Nat) : Nat :=
  64 * (bits start).toNat + 32 * (bits (start + 1)).toNat
    + 16 * (bits (start + 2)).toNat + 8 * (bits (start + 3)).toNat
    + 4 * (bits (start + 4)).toNat + 2 * (bits (start + 5)).toNat
    + (bits (start + 6)).toNat

theorem readMouseDelta_eq_magnitude7 (bits : Nat → Bool) (start : Nat) :
    readMouseDelta bits start = magnitude7 bits start := by
  have h : ∀ b0 b1 b2 b3 b4 b5 b6 : Bool,
      ((((((((0 : Nat) ||| (b0.toNat <<< 6)) ||| (b1.toNat <<< 5))
        ||| (b2.toNat <<< 4)) ||| (b3.toNat <<< 3)) ||| (b4.toNat <<< 2))
        ||| (b5.toNat <<< 1)) ||| b6.toNat)
      = 64 * b0.toNat + 32 * b1.toNat + 16 * b2.toNat + 8 * b3.toNat
        + 4 * b4.toNat + 2 * b5.toNat + b6.toNat := by decide
  simpa [readMouseDelta, magnitude7] using
    h (bits start) (bits (start + 1)) (bits (start + 2)) (bits (start + 3))
      (bits (start + 4)) (bits (start + 5)) (bits (start + 6))

theorem magnitude7_lt (bits : Nat → Bool) (start : Nat) :
    magnitude7 bits start < 128 := by
  have h : ∀ b : Bool, b.toNat ≤ 1 := by decide
  have h0 := h (bits start)
  have h1 := h (bits (start + 1))
  have h2 := h (bits (start + 2))
  have h3 := h (bits (start + 3))
  have h4 := h (bits (start + 4))
  have h5 := h (bits (start + 5))
  have h6 := h (bits (start + 6))
  unfold magnitude7
  omega

/-- Claim C1: when the decoder does not detect the mouse signature, it
classifies the device as NES (`snesMode = false`) exactly when the four
SNES-extension bits of the raw report (bits $08-$0B, read into `snesA`,
`snesX`, `snesL`, `snesR`) are all true, and as SNES (`snesMode = true`)
when they are not all true. -/
theorem nes_snes_mode_classification (bits : Nat → Bool) (fireReversed : Bool)
    (prev : DecodedState)
    (hnm : (nesReadButtons bits fireReversed prev).snesMouse = false) :
    (nesReadButtons bits fireReversed prev).snesMode
      = !(bits 8 && bits 9 && bits 10 && bits 11) := by
  by_cases hc : ((((bits 12).toNat + (bits 13).toNat + (bits 14).toNat) == 0)
      && bits 15) = true
  · simp [nesReadButtons, hc] at hnm
  · rw [Bool.not_eq_true] at hc
    simp [nesReadButtons, hc]

/-- Witness for claim C1: an all-true bit pattern (what a plain NES pad
produces) has no mouse signature and is classified as NES. -/
theorem nes_snes_mode_classification_witness :
    (nesReadButtons (fun _ => true) false idleDecoded).snesMode
      = !(true && true && true && true) :=
  nes_snes_mode_classification (fun _ => true) false idleDecoded (by decide)

/-- Claim C2: whenever the three signature bits $0C-$0E read false and the
marker bit $0F reads true, the decoder selects mouse mode for that cycle —
whatever the SNES extension bits $08-$0B hold — and decodes the following
bits as a direction bit ($10) plus 7-bit magnitude ($11-$17) for Y and a
direction bit ($18) plus 7-bit magnitude ($19-$1F) for X. -/
theorem mouse_signature_selects_mouse (bits : Nat → Bool) (fireReversed : Bool)
    (prev : DecodedState) (h12 : bits 12 = false) (h13 : bits 13 = false)
    (h14 : bits 14 = false) (h15 : bits 15 = true) :
    (nesReadButtons bits fireReversed prev).snesMouse = true
      ∧ (nesReadButtons bits fireReversed prev).mouseDirY = bits 16
      ∧ (nesReadButtons bits fireReversed prev).mouseDY = magnitude7 bits 17
      ∧ (nesReadButtons bits fireReversed prev).mouseDirX = bits 24
      ∧ (nesReadButtons bits fireReversed prev).mouseDX = magnitude7 bits 25
      ∧ (nesReadButtons bits fireReversed prev).mouseDY < 128
      ∧ (nesReadButtons bits fireReversed prev).mouseDX < 128 := by
  simp [nesReadButtons, h12, h13, h14, h15, readMouseDelta_eq_magnitude7,
    magnitude7_lt]

/-- Witness for claim C2: a stream holding only the marker bit $0F (and
extension bits all false) is decoded as a mouse with idle motion fields. -/
theorem mouse_signature_selects_mouse_witness :
    (nesReadButtons (fun i => i == 15) false idleDecoded).snesMouse = true
      ∧ (nesReadButtons (fun i => i == 15) false idleDecoded).mouseDirY = false
      ∧ (nesReadButtons (fun i => i == 15) false idleDecoded).mouseDY
          = magnitude7 (fun i => i == 15) 17
      ∧ (nesReadButtons (fun i => i == 15) false idleDecoded).mouseDirX = false
      ∧ (nesReadButtons (fun i => i == 15) false idleDecoded).mouseDX
          = magnitude7 (fun i => i == 15) 25
      ∧ (nesReadButtons (fun i => i == 15) false idleDecoded).mouseDY < 128
      ∧ (nesReadButtons (fun i => i == 15) false idleDecoded).mouseDX < 128 :=
  mouse_signature_selects_mouse (fun i => i == 15) false idleDecoded
    rfl rfl rfl rfl

/-- Claim C3 counterexample: the fire-reversal flag does not swap Fire1 and
Fire2 for the SNES mouse.  With a mouse stream that holds only the button
read at bit $09 (decoded as `nesFire1`) and `fireReversed = true`, the claim
predicts the swapped assignment — `nesFire1`/`nesFire2` equal to the
unreversed `nesFire2`/`nesFire1` — but `nesReadButtons` applies the swap
only on the non-mouse path (source lines 442-446 sit in the `else` branch),
so the assignment comes out unswapped. -/
theorem mouse_fire_reversal_cex :
    (nesReadButtons (fun i => i == 9 || i == 15) true idleDecoded).snesMouse
        = true
    ∧ ¬ ((nesReadButtons (fun i => i == 9 || i == 15) true idleDecoded).nesFire1
          = (nesReadButtons (fun i => i == 9 || i == 15) false
              idleDecoded).nesFire2
        ∧ (nesReadButtons (fun i => i == 9 || i == 15) true idleDecoded).nesFire2
          = (nesReadButtons (fun i => i == 9 || i == 15) false
              idleDecoded).nesFire1) := by
  decide

/-- Amended claim C3's fire mapping as a standalone definition: a plain NES
pad maps Fire1/Fire2 to B/A (bits $01/$00); a SNES pad maps them to the SNES
layout's B/A (bits $00/$08); the fire-reversal flag swaps the pad
assignment; the SNES mouse maps Fire1/Fire2 to its own two buttons (bits
$09/$08) regardless of the fire-reversal flag. -/
def fireAssignment (bits : Nat → Bool)
    (fireReversed snesMouseMode snesPadMode : Bool) : Bool × Bool :=
  if snesMouseMode then (bits 9, bits 8)
  else
    let p := if snesPadMode then (bits 0, bits 8) else (bits 1, bits 0)
    if fireReversed then (p.2, p.1) else p

/-- Claim C3 (amended): the decoder's logical Fire1/Fire2 follow
`fireAssignment`: B/A for a plain NES pad, SNES B/A for a SNES pad, swapped
when the fire-reversal flag is set, and the mouse's own two buttons —
unaffected by the fire-reversal flag — in mouse mode. -/
theorem fire_assignment_by_mode (bits : Nat → Bool) (fireReversed : Bool)
    (prev : DecodedState) :
    ((nesReadButtons bits fireReversed prev).nesFire1,
      (nesReadButtons bits fireReversed prev).nesFire2)
      = fireAssignment bits fireReversed
          (nesReadButtons bits fireReversed prev).snesMouse
          (nesReadButtons bits fireReversed prev).snesMode := by
  by_cases hc : ((((bits 12).toNat + (bits 13).toNat + (bits 14).toNat) == 0)
      && bits 15) = true
  · simp [nesReadButtons, hc, fireAssignment]
  · rw [Bool.not_eq_true] at hc
    by_cases hm : (bits 8 && bits 9 && bits 10 && bits 11) = true
    · cases hfr : fireReversed <;>
        simp [nesReadButtons, hc, hm, hfr, fireAssignment]
    · rw [Bool.not_eq_true] at hm
      cases hfr : fireReversed <;>
        simp [nesReadButtons, hc, hm, hfr, fireAssignment]

/-!
## Settings and combo state machine

`loop()` walks the `settingCombos` table in order.  A satisfied combo is
armed and the function returns at once (suppressing the rest of the scan
and all output driving for the cycle); an armed combo that is no longer
satisfied fires its handler and is disarmed.  The scan is modelled as a
function from the table (each combo paired with its `comboPressed` flag)
to the updated table, a fired flag per table position, and the
suppression flag.
-/

inductive ComboAction where
  | increasFireRate
  | decreaseFireRate
  | toggleAutoFire1
  | toggleAutoFire2
  | toggleFire2IsUp
  | setJoyPort0
  | setJoyPort1
  | toggleFireReversed
deriving DecidableEq

structure SettingCombo where
  specialButton : DecodedState → Bool
  comboButton : Option (DecodedState → Bool)
  handler : ComboAction

/-- The combo test in `loop()`: special button held, and the co-button
either absent (`NULL`) or held. -/
def comboSatisfied (c : SettingCombo) (d : DecodedState) : Bool :=
  c.specialButton d && (match c.comboButton with
    | none => true
    | some f => f d)

/-- One pass of the combo scan.  Each result entry pairs the combo (with
its updated `comboPressed` flag) with whether its handler fired this
cycle; the second component records the early `return` (suppression).
Combos after a satisfied one are left untouched, exactly as the `return`
leaves them. -/
def scanCombos (d : DecodedState) :
    List (SettingCombo × Bool) → List ((SettingCombo × Bool) × Bool) × Bool
  | [] => ([], false)
  | (c, armed) :: rest =>
    if comboSatisfied c d then
      (((c, true), false) :: rest.map (fun p => (p, false)), true)
    else
      let t := scanCombos d rest
      (((c, false), armed) :: t.1, t.2)

/-- The table as it enters the next cycle. -/
def newCombos (r : List ((SettingCombo × Bool) × Bool)) :
    List (SettingCombo × Bool) :=
  r.map (fun e => e.1)

/-- The per-position fired flags of one scan. -/
def firedFlags (r : List ((SettingCombo × Bool) × Bool)) : List Bool :=
  r.map (fun e => e.2)

/-- Run the combo scan over a sequence of decoded cycles, collecting the
fired flags of every cycle. -/
def runCombos (t : List (SettingCombo × Bool)) :
    List DecodedState → List (List Bool)
  | [] => []
  | d :: ds => firedFlags (scanCombos d t).1
      :: runCombos (newCombos (scanCombos d t).1) ds

/-- Whether the combo at table position `j` fired on cycle `k`. -/
def firedAt : List (List Bool) → Nat → Nat → Bool
  | [], _, _ => false
  | f :: _, 0, j => (f.get? j).getD false
  | _ :: fs, k + 1, j => firedAt fs k j

/-- The table built by `setupSettingCombos()`, in source order, with every
`comboPressed` flag false as at startup. -/
def settingCombos : List (SettingCombo × Bool) :=
  [ ({ specialButton := fun d => d.nesStart,
       comboButton := some fun d => d.nesUp,
       handler := ComboAction.increasFireRate }, false),
    ({ specialButton := fun d => d.nesStart,
       comboButton := some fun d => d.nesDown,
       handler := ComboAction.decreaseFireRate }, false),
    ({ specialButton := fun d => d.nesStart,
       comboButton := some fun d => d.nesFire1,
       handler := ComboAction.toggleAutoFire1 }, false),
    ({ specialButton := fun d => d.nesStart,
       comboButton := some fun d => d.nesFire2,
       handler := ComboAction.toggleAutoFire2 }, false),
    ({ specialButton := fun d => d.nesSelect,
       comboButton := some fun d => d.nesUp,
       handler := ComboAction.toggleFire2IsUp }, false),
    ({ specialButton := fun d => d.nesSelect,
       comboButton := some fun d => d.nesLeft,
       handler := ComboAction.setJoyPort0 }, false),
    ({ specialButton := fun d => d.nesSelect,
       comboButton := some fun d => d.nesRight,
       handler := ComboAction.setJoyPort1 }, false),
    ({ specialButton := fun d => d.nesSelect,
       comboButton := some fun d => d.nesFire2,
       handler := ComboAction.toggleFireReversed }, false) ]

theorem scanCombos_combo_at (d : DecodedState) :
    ∀ (l : List (SettingCombo × Bool)) (i : Nat),
      ((newCombos (scanCombos d l).1).get? i).map Prod.fst
        = (l.get? i).map Prod.fst := by
  intro l
  induction l with
  | nil => intro i; rfl
  | cons e tl ih =>
    obtain ⟨c, a⟩ := e
    intro i
    by_cases hs : comboSatisfied c d = true
    · cases i with
      | zero => simp [scanCombos, hs, newCombos]
      | succ i =>
        simp [scanCombos, hs, newCombos, List.getElem?_map]
        cases tl[i]? <;> rfl
    · rw [Bool.not_eq_true] at hs
      cases i with
      | zero => simp [scanCombos, hs, newCombos]
      | succ i =>
        have := ih i
        simpa [scanCombos, hs, newCombos] using this

theorem list_pair_head_eq {α β : Type} {c' c : α} {a' a : β}
    (h : some (c', a') = some (c, a)) : c' = c ∧ a' = a := by
  injection h with h1
  injection h1 with h2 h3
  exact ⟨h2, h3⟩

theorem scan_untouched :
    ∀ (tl : List (SettingCombo × Bool)) (j : Nat) (p : SettingCombo × Bool),
      tl.get? j = some p →
      (firedFlags (tl.map fun q => (q, false))).get? j = some false
        ∧ (newCombos (tl.map fun q => (q, false))).get? j = some p := by
  intro tl
  induction tl with
  | nil => intro j p hj; simp at hj
  | cons e tl ih =>
    intro j p hj
    cases j with
    | zero =>
      injection hj with h
      subst h
      exact ⟨rfl, rfl⟩
    | succ j => exact ih j p hj

theorem scanCombos_reach (d : DecodedState) :
    ∀ (l : List (SettingCombo × Bool)) (j : Nat) (c : SettingCombo) (a : Bool),
      l.get? j = some (c, a) →
      (∀ i, i < j → ∀ p : SettingCombo × Bool,
        l.get? i = some p → comboSatisfied p.1 d = false) →
      (firedFlags (scanCombos d l).1).get? j
          = some (a && !(comboSatisfied c d))
        ∧ (newCombos (scanCombos d l).1).get? j
          = some (c, comboSatisfied c d) := by
  intro l
  induction l with
  | nil => intro j c a hj; simp at hj
  | cons e tl ih =>
    obtain ⟨c', a'⟩ := e
    intro j c a hj hpre
    cases j with
    | zero =>
      obtain ⟨rfl, rfl⟩ := list_pair_head_eq hj
      by_cases hs : comboSatisfied c' d = true
      · simp [scanCombos, hs, firedFlags, newCombos]
      · rw [Bool.not_eq_true] at hs
        simp [scanCombos, hs, firedFlags, newCombos]
    | succ j =>
      have h0 : comboSatisfied c' d = false :=
        hpre 0 (Nat.succ_pos _) (c', a') rfl
      have htl := ih j c a hj
        (fun i hi p hp => hpre (i + 1) (Nat.succ_lt_succ hi) p hp)
      simpa [scanCombos, h0, firedFlags, newCombos] using htl

theorem scanCombos_stable (d : DecodedState) :
    ∀ (l : List (SettingCombo × Bool)) (j : Nat) (c : SettingCombo),
      l.get? j = some (c, false) → comboSatisfied c d = false →
      (firedFlags (scanCombos d l).1).get? j = some false
        ∧ (newCombos (scanCombos d l).1).get? j = some (c, false) := by
  intro l
  induction l with
  | nil => intro j c hj; simp at hj
  | cons e tl ih =>
    obtain ⟨c', a'⟩ := e
    intro j c hj hc
    cases j with
    | zero =>
      obtain ⟨rfl, rfl⟩ := list_pair_head_eq hj
      simp [scanCombos, hc, firedFlags, newCombos]
    | succ j =>
      by_cases hs : comboSatisfied c' d = true
      · have hscan : (scanCombos d ((c', a') :: tl)).1
            = ((c', true), false) :: tl.map (fun p => (p, false)) := by
          simp [scanCombos, hs]
        rw [hscan]
        exact scan_untouched tl j (c, false) hj
      · rw [Bool.not_eq_true] at hs
        have htl := ih j c hj hc
        simpa [scanCombos, hs, firedFlags, newCombos] using htl

theorem runCombos_disarmed (c : SettingCombo) (j : Nat) :
    ∀ (ds : List DecodedState) (t : List (SettingCombo × Bool)),
      t.get? j = some (c, false) →
      (∀ d ∈ ds, comboSatisfied c d = false) →
      ∀ k, firedAt (runCombos t ds) k j = false := by
  intro ds
  induction ds with
  | nil => intro t ht hds k; rfl
  | cons d ds ih =>
    intro t ht hds k
    have hst := scanCombos_stable d t j c ht (hds d (by simp))
    cases k with
    | zero =>
      show ((firedFlags (scanCombos d t).1).get? j).getD false = false
      rw [hst.1]
      rfl
    | succ k =>
      show firedAt (runCombos (newCombos (scanCombos d t).1) ds) k j = false
      exact ih (newCombos (scanCombos d t).1) hst.2
        (fun e he => hds e (by simp [he])) k

theorem runCombos_armed_fires (c : SettingCombo) (j : Nat) (rel : DecodedState)
    (rest : List DecodedState) (hrel : comboSatisfied c rel = false)
    (hrest : ∀ d ∈ rest, comboSatisfied c d = false) :
    ∀ (held2 : List DecodedState) (t : List (SettingCombo × Bool)),
      t.get? j = some (c, true) →
      (∀ i, i < j → ∀ cb : SettingCombo,
        (t.get? i).map Prod.fst = some cb →
        (∀ d ∈ held2, comboSatisfied cb d = false)
          ∧ comboSatisfied cb rel = false) →
      (∀ d ∈ held2, comboSatisfied c d = true) →
      ∀ k, firedAt (runCombos t (held2 ++ rel :: rest)) k j
        = decide (k = held2.length) := by
  intro held2
  induction held2 with
  | nil =>
    intro t ht hpre hheld k
    have hreach := scanCombos_reach rel t j c true ht
      (fun i hi p hp => (hpre i hi p.1 (by rw [hp]; rfl)).2)
    cases k with
    | zero =>
      show ((firedFlags (scanCombos rel t).1).get? j).getD false
        = decide (0 = ([] : List DecodedState).length)
      rw [hreach.1]
      simp [hrel]
    | succ k =>
      show firedAt (runCombos (newCombos (scanCombos rel t).1) rest) k j
        = decide (k + 1 = ([] : List DecodedState).length)
      have hnt : (newCombos (scanCombos rel t).1).get? j = some (c, false) := by
        rw [hreach.2, hrel]
      rw [runCombos_disarmed c j rest (newCombos (scanCombos rel t).1) hnt hrest k]
      simp
  | cons d held2' ih =>
    intro t ht hpre hheld k
    have hheldd : comboSatisfied c d = true := hheld d (by simp)
    have hreach := scanCombos_reach d t j c true ht
      (fun i hi p hp => ((hpre i hi p.1 (by rw [hp]; rfl)).1 d (by simp)))
    cases k with
    | zero =>
      show ((firedFlags (scanCombos d t).1).get? j).getD false
        = decide (0 = (d :: held2').length)
      rw [hreach.1]
      simp [hheldd]
    | succ k =>
      show firedAt (runCombos (newCombos (scanCombos d t).1)
          (held2' ++ rel :: rest)) k j = decide (k + 1 = (d :: held2').length)
      have hnt : (newCombos (scanCombos d t).1).get? j = some (c, true) := by
        rw [hreach.2, hheldd]
      have hpre' : ∀ i, i < j → ∀ cb : SettingCombo,
          ((newCombos (scanCombos d t).1).get? i).map Prod.fst = some cb →
          (∀ e ∈ held2', comboSatisfied cb e = false)
            ∧ comboSatisfied cb rel = false := by
        intro i hi cb hcb
        rw [scanCombos_combo_at d t i] at hcb
        have h := hpre i hi cb hcb
        exact ⟨fun e he => h.1 e (by simp [he]), h.2⟩
      rw [ih (newCombos (scanCombos d t).1) hnt hpre'
        (fun e he => hheld e (by simp [he])) k]
      simp only [List.length_cons, decide_eq_decide]
      omega

/-- Decoded state of a plain NES pad holding Start and B (B is the logical
Fire1 on an unreversed NES pad): bits $01, $03, plus the all-true extension
bits $08-$0B a NES controller reports. -/
def padStartFire1 : DecodedState :=
  nesReadButtons
    (fun i => i == 1 || i == 3 || i == 8 || i == 9 || i == 10 || i == 11)
    false idleDecoded

/-- Decoded state of a plain NES pad holding Start and Up: bits $03, $04,
plus the all-true extension bits. -/
def padStartUp : DecodedState :=
  nesReadButtons
    (fun i => i == 3 || i == 4 || i == 8 || i == 9 || i == 10 || i == 11)
    false idleDecoded

/-- Decoded state of a plain NES pad with every button released. -/
def padNeutral : DecodedState :=
  nesReadButtons (fun i => i == 8 || i == 9 || i == 10 || i == 11)
    false idleDecoded

/-- Claim C4 counterexample: the gesture at table position 2 (Start+Fire1)
has its chord held on cycle 0 and released on cycle 1, yet its action does
not run on cycle 1 — the claim demands it run on the first cycle after the
chord ceases.  On cycle 1 the earlier gesture Start+Up (position 0) is
satisfied, and the scan's early `return` stops before position 2 is
examined, deferring the armed gesture's firing. -/
theorem gesture_release_blocked_cex :
    ((settingCombos.get? 2).map fun p => comboSatisfied p.1 padStartFire1)
        = some true
    ∧ ((settingCombos.get? 2).map fun p => comboSatisfied p.1 padStartUp)
        = some false
    ∧ firedAt (runCombos settingCombos [padStartFire1, padStartUp]) 1 2
        = false := by
  decide

/-- Claim C4 (amended): for a gesture at table position `j` that starts
disarmed, if its chord is held for one or more cycles and then released,
and no gesture earlier in the table has its chord satisfied during the hold
or on the release cycle (the early `return` of a satisfied earlier gesture
would otherwise stop the scan before position `j`), then the gesture's
bound action runs exactly once: on the release cycle, and on no cycle while
the chord is held nor on any later cycle that does not re-satisfy the
chord. -/
theorem gesture_fires_once_on_release
    (t : List (SettingCombo × Bool)) (j : Nat) (c : SettingCombo)
    (held : List DecodedState) (rel : DecodedState) (rest : List DecodedState)
    (hj : t.get? j = some (c, false))
    (hpre : ∀ i, i < j → ∀ cb : SettingCombo,
      (t.get? i).map Prod.fst = some cb →
      (∀ d ∈ held, comboSatisfied cb d = false)
        ∧ comboSatisfied cb rel = false)
    (hheld : ∀ d ∈ held, comboSatisfied c d = true)
    (hne : held ≠ [])
    (hrel : comboSatisfied c rel = false)
    (hrest : ∀ d ∈ rest, comboSatisfied c d = false) :
    ∀ k, firedAt (runCombos t (held ++ rel :: rest)) k j
      = decide (k = held.length) := by
  cases held with
  | nil => exact absurd rfl hne
  | cons d held' =>
    have hheldd : comboSatisfied c d = true := hheld d (by simp)
    have hreach := scanCombos_reach d t j c false hj
      (fun i hi p hp => ((hpre i hi p.1 (by rw [hp]; rfl)).1 d (by simp)))
    intro k
    cases k with
    | zero =>
      show ((firedFlags (scanCombos d t).1).get? j).getD false
        = decide (0 = (d :: held').length)
      rw [hreach.1]
      simp
    | succ k =>
      show firedAt (runCombos (newCombos (scanCombos d t).1)
          (held' ++ rel :: rest)) k j = decide (k + 1 = (d :: held').length)
      have hnt : (newCombos (scanCombos d t).1).get? j = some (c, true) := by
        rw [hreach.2, hheldd]
      have hpre' : ∀ i, i < j → ∀ cb : SettingCombo,
          ((newCombos (scanCombos d t).1).get? i).map Prod.fst = some cb →
          (∀ e ∈ held', comboSatisfied cb e = false)
            ∧ comboSatisfied cb rel = false := by
        intro i hi cb hcb
        rw [scanCombos_combo_at d t i] at hcb
        have h := hpre i hi cb hcb
        exact ⟨fun e he => h.1 e (by simp [he]), h.2⟩
      rw [runCombos_armed_fires c j rel rest hrel hrest held'
        (newCombos (scanCombos d t).1) hnt hpre'
        (fun e he => hheld e (by simp [he])) k]
      simp only [List.length_cons, decide_eq_decide]
      omega

/-- Witness for amended claim C4: the Start+Up gesture (table position 0)
held for one cycle and released fires on the release cycle. -/
theorem gesture_fires_once_on_release_witness :
    firedAt (runCombos settingCombos [padStartUp, padNeutral]) 1 0
      = decide (1 = 1) :=
  gesture_fires_once_on_release settingCombos 0
    ⟨fun d => d.nesStart, some fun d => d.nesUp, ComboAction.increasFireRate⟩
    [padStartUp] padNeutral [] rfl
    (fun i hi => absurd hi (Nat.not_lt_zero i))
    (by intro d hd; rw [List.mem_singleton] at hd; subst hd; decide)
    (by simp)
    (by decide)
    (fun d hd => absurd hd (List.not_mem_nil d))
    1

/-!
## Autofire rate setting

`autoFireRateMillis` is loaded and clamped in `setup()` and mutated only
by the `increasFireRate()` / `decreaseFireRate()` handlers (the source
keeps the typo `increasFireRate`).  Each function below returns the new
rate together with whether it performed an EEPROM write.
-/

def increasFireRate (rate : Nat) : Nat × Bool :=
  if AUTOFIRE_RATE_MILLIS_MIN < rate then
    let rate := rate - AUTOFIRE_RATE_ADJUST_DELTA
    let rate := if rate < AUTOFIRE_RATE_MILLIS_MIN then AUTOFIRE_RATE_MILLIS_MIN
      else rate
    (rate, true)
  else (rate, false)

def decreaseFireRate (rate : Nat) : Nat × Bool :=
  if rate < AUTOFIRE_RATE_MILLIS_MAX then
    let rate := rate + AUTOFIRE_RATE_ADJUST_DELTA
    let rate := if AUTOFIRE_RATE_MILLIS_MAX < rate then AUTOFIRE_RATE_MILLIS_MAX
      else rate
    (rate, true)
  else (rate, false)

/-- The autofire-rate part of `setup()`: load the stored byte and repair an
out-of-range value, writing the repaired value back.  Returns the resulting
rate and the number of EEPROM writes performed. -/
def setupAutoFireRate (stored : Nat) : Nat × Nat :=
  let rate := stored
  let rw1 := if rate < AUTOFIRE_RATE_MILLIS_MIN
    then (AUTOFIRE_RATE_MILLIS_MIN, 1) else (rate, 0)
  let rw2 := if AUTOFIRE_RATE_MILLIS_MAX < rw1.1
    then (AUTOFIRE_RATE_MILLIS_MAX, rw1.2 + 1) else (rw1.1, rw1.2)
  rw2

inductive RateAction where
  | increase
  | decrease

def applyRateAction : RateAction → Nat → Nat
  | RateAction.increase, r => (increasFireRate r).1
  | RateAction.decrease, r => (decreaseFireRate r).1

/-- The rate reached from `r` after a sequence of rate-adjust gestures. -/
def runRateActions (acts : List RateAction) (r : Nat) : Nat :=
  acts.foldl (fun r a => applyRateAction a r) r

theorem applyRateAction_range (a : RateAction) (r : Nat)
    (h1 : AUTOFIRE_RATE_MILLIS_MIN ≤ r) (h2 : r ≤ AUTOFIRE_RATE_MILLIS_MAX) :
    AUTOFIRE_RATE_MILLIS_MIN ≤ applyRateAction a r
      ∧ applyRateAction a r ≤ AUTOFIRE_RATE_MILLIS_MAX := by
  simp only [AUTOFIRE_RATE_MILLIS_MIN, AUTOFIRE_RATE_MILLIS_MAX] at h1 h2
  cases a <;>
    simp only [applyRateAction, increasFireRate, decreaseFireRate,
      AUTOFIRE_RATE_MILLIS_MIN, AUTOFIRE_RATE_MILLIS_MAX,
      AUTOFIRE_RATE_ADJUST_DELTA] <;>
    split_ifs <;> simp <;> omega

theorem runRateActions_range (acts : List RateAction) :
    ∀ r, AUTOFIRE_RATE_MILLIS_MIN ≤ r → r ≤ AUTOFIRE_RATE_MILLIS_MAX →
      AUTOFIRE_RATE_MILLIS_MIN ≤ runRateActions acts r
        ∧ runRateActions acts r ≤ AUTOFIRE_RATE_MILLIS_MAX := by
  induction acts with
  | nil => intro r h1 h2; exact ⟨h1, h2⟩
  | cons a acts ih =>
    intro r h1 h2
    have h := applyRateAction_range a r h1 h2
    exact ih (applyRateAction a r) h.1 h.2

/-- Claim C5: the startup load clamps the stored autofire rate into
`[AUTOFIRE_RATE_MILLIS_MIN, AUTOFIRE_RATE_MILLIS_MAX]` (writing back
exactly when the stored value was out of range); every sequence of
increase/decrease gestures keeps the rate in range; and an
increase/decrease gesture performs an EEPROM write exactly when the
clamped result differs from the previous value. -/
theorem autofire_rate_clamped (stored : Nat) (acts : List RateAction) :
    AUTOFIRE_RATE_MILLIS_MIN ≤ (setupAutoFireRate stored).1
    ∧ (setupAutoFireRate stored).1 ≤ AUTOFIRE_RATE_MILLIS_MAX
    ∧ ((setupAutoFireRate stored).2
        = if stored < AUTOFIRE_RATE_MILLIS_MIN
            ∨ AUTOFIRE_RATE_MILLIS_MAX < stored then 1 else 0)
    ∧ AUTOFIRE_RATE_MILLIS_MIN ≤ runRateActions acts (setupAutoFireRate stored).1
    ∧ runRateActions acts (setupAutoFireRate stored).1 ≤ AUTOFIRE_RATE_MILLIS_MAX
    ∧ (∀ r, AUTOFIRE_RATE_MILLIS_MIN ≤ r → r ≤ AUTOFIRE_RATE_MILLIS_MAX →
        (((increasFireRate r).2 = true) ↔ (increasFireRate r).1 ≠ r)
        ∧ (((decreaseFireRate r).2 = true) ↔ (decreaseFireRate r).1 ≠ r)) := by
  have hlo : AUTOFIRE_RATE_MILLIS_MIN ≤ (setupAutoFireRate stored).1 := by
    simp only [setupAutoFireRate, AUTOFIRE_RATE_MILLIS_MIN,
      AUTOFIRE_RATE_MILLIS_MAX]
    split_ifs <;> omega
  have hhi : (setupAutoFireRate stored).1 ≤ AUTOFIRE_RATE_MILLIS_MAX := by
    simp only [setupAutoFireRate, AUTOFIRE_RATE_MILLIS_MIN,
      AUTOFIRE_RATE_MILLIS_MAX]
    split_ifs <;> omega
  refine ⟨hlo, hhi, ?_, (runRateActions_range acts _ hlo hhi).1,
    (runRateActions_range acts _ hlo hhi).2, ?_⟩
  · simp only [setupAutoFireRate, AUTOFIRE_RATE_MILLIS_MIN,
      AUTOFIRE_RATE_MILLIS_MAX]
    split_ifs <;> simp_all <;> try omega
  · intro r h1 h2
    simp only [AUTOFIRE_RATE_MILLIS_MIN, AUTOFIRE_RATE_MILLIS_MAX] at h1 h2
    constructor
    · simp only [increasFireRate, AUTOFIRE_RATE_MILLIS_MIN,
        AUTOFIRE_RATE_ADJUST_DELTA]
      split_ifs <;> simp <;> try omega
    · simp only [decreaseFireRate, AUTOFIRE_RATE_MILLIS_MAX,
        AUTOFIRE_RATE_ADJUST_DELTA]
      split_ifs <;> simp <;> try omega

/-- Witness for claim C5: loading a stored value of 200 clamps to the
maximum, and at the minimum rate an increase gesture writes nothing. -/
theorem autofire_rate_clamped_witness :
    AUTOFIRE_RATE_MILLIS_MIN
        ≤ runRateActions [RateAction.increase] (setupAutoFireRate 200).1
    ∧ (((increasFireRate 50).2 = true) ↔ (increasFireRate 50).1 ≠ 50) :=
  ⟨(autofire_rate_clamped 200 [RateAction.increase]).2.2.2.1,
    ((autofire_rate_clamped 200 []).2.2.2.2.2 50 (by decide) (by decide)).1⟩

/-!
## Fire buttons and output driving

Per-button runtime state from the `FireButton` struct, plus the level the
button's own output line is currently driven to (`true` = asserted: the
pin is configured as a driven-low output).  The EEPROM address and the
button/pin pointers of the struct are represented by position (button 0
drives `joyFire1` from `nesFire1`, button 1 drives `joyFire2` from
`nesFire2`); the LED-blink bookkeeping is omitted.
-/

structure FireButton where
  fireIsUp : Bool
  autoFire : Bool
  autoFirePress : Bool
  autoFireStateMillis : Nat
  line : Bool
deriving DecidableEq

/-- C unsigned-long subtraction `b - a` of two 32-bit values. -/
def usubUL (b a : Nat) : Nat :=
  (b % UINT32_MOD + UINT32_MOD - a % UINT32_MOD) % UINT32_MOD

/-- One iteration of the fire-button loop in `loop()` for one button:
given the autofire rate, the cycle's `currentMillis` and the button's
decoded fire signal, returns the updated state and the `fireUp`
assignment (`some v` when the branch assigns `fireUp`, `none` when it
leaves it alone). -/
def fireButtonCycle (rate cur : Nat) (pressed : Bool) (fb : FireButton) :
    FireButton × Option Bool :=
  if fb.fireIsUp then
    ({ fb with line := false }, some pressed)
  else
    if fb.autoFire && pressed then
      if fb.autoFireStateMillis == 0 then
        ({ fb with
            autoFireStateMillis := cur, autoFirePress := true, line := true },
          none)
      else if rate ≤ usubUL cur fb.autoFireStateMillis then
        ({ fb with
            autoFireStateMillis := cur,
            autoFirePress := !fb.autoFirePress,
            line := !fb.autoFirePress },
          none)
      else (fb, none)
    else
      ({ fb with autoFireStateMillis := 0, line := pressed }, none)

/-- Run one fire button over a trace of `(currentMillis, fire signal)`
cycles, collecting the state after every cycle. -/
def fireButtonRun (rate : Nat) (fb : FireButton) :
    List (Nat × Bool) → List FireButton
  | [] => []
  | (cur, p) :: rest =>
    (fireButtonCycle rate cur p fb).1
      :: fireButtonRun rate (fireButtonCycle rate cur p fb).1 rest

structure JoyLines where
  up : Bool
  down : Bool
  left : Bool
  right : Bool
deriving DecidableEq

/-- The output part of `loop()` (after the combo scan, on a cycle the scan
does not suppress): run fire button 0 then fire button 1, accumulating the
loop-local `fireUp` (initialized false, assigned only in the mapped-to-Up
branch), then drive the four direction lines. -/
def outputStage (rate cur : Nat) (d : DecodedState) (fb0 fb1 : FireButton) :
    FireButton × FireButton × JoyLines :=
  let fireUp := false
  let r0 := fireButtonCycle rate cur d.nesFire1 fb0
  let fireUp := r0.2.getD fireUp
  let r1 := fireButtonCycle rate cur d.nesFire2 fb1
  let fireUp := r1.2.getD fireUp
  (r0.1, r1.1,
    { up := d.nesUp || fireUp, down := d.nesDown,
      left := d.nesLeft || d.snesL, right := d.nesRight || d.snesR })

theorem fireButtonCycle_no_fireUp (rate cur : Nat) (pressed : Bool)
    (fb : FireButton) (h : fb.fireIsUp = false) :
    (fireButtonCycle rate cur pressed fb).2 = none := by
  by_cases h2 : (fb.autoFire && pressed) = true
  · by_cases h3 : (fb.autoFireStateMillis == 0) = true
    · simp [fireButtonCycle, h, h2, h3]
    · by_cases h4 : rate ≤ usubUL cur fb.autoFireStateMillis
      · simp [fireButtonCycle, h, h2, h3, h4]
      · simp [fireButtonCycle, h, h2, h3, h4]
  · simp [fireButtonCycle, h, h2]

/-- Claim C7: when fire button 2 is mapped to Up, its own output line is
released and the Up line asserts exactly when the physical Up input or
fire button 2's logical fire signal is asserted.  (`setupFireButtons()`
fixes `fireButtons[0].fireIsUp = false` and no code path mutates it, which
the hypothesis `h0` records.) -/
theorem fire2_mapped_to_up (rate cur : Nat) (d : DecodedState)
    (fb0 fb1 : FireButton) (h0 : fb0.fireIsUp = false)
    (h1 : fb1.fireIsUp = true) :
    (outputStage rate cur d fb0 fb1).2.1.line = false
    ∧ (outputStage rate cur d fb0 fb1).2.2.up = (d.nesUp || d.nesFire2) := by
  have hn := fireButtonCycle_no_fireUp rate cur d.nesFire1 fb0 h0
  constructor <;> simp [outputStage, hn, fireButtonCycle, h1]

/-- Witness for claim C7 at a concrete idle input. -/
theorem fire2_mapped_to_up_witness :
    (outputStage 50 100 padNeutral ⟨false, false, false, 0, false⟩
        ⟨true, false, false, 0, false⟩).2.1.line = false
    ∧ (outputStage 50 100 padNeutral ⟨false, false, false, 0, false⟩
        ⟨true, false, false, 0, false⟩).2.2.up
      = (padNeutral.nesUp || padNeutral.nesFire2) :=
  fire2_mapped_to_up 50 100 padNeutral ⟨false, false, false, 0, false⟩
    ⟨true, false, false, 0, false⟩ rfl rfl

theorem usubUL_eq (a b : Nat) (hab : a ≤ b) (hb : b < UINT32_MOD) :
    usubUL b a = b - a := by
  unfold usubUL UINT32_MOD at *
  omega

theorem fireButtonCycle_steady (rate cur : Nat) (s : FireButton)
    (hup : s.fireIsUp = false) (haf : s.autoFire = true)
    (hpos : 0 < s.autoFireStateMillis) (hle : s.autoFireStateMillis ≤ cur)
    (hcur : cur < UINT32_MOD) :
    (fireButtonCycle rate cur true s).1
      = if rate ≤ cur - s.autoFireStateMillis
        then { s with
            autoFirePress := !s.autoFirePress,
            line := !s.autoFirePress,
            autoFireStateMillis := cur }
        else s := by
  have hne : (s.autoFireStateMillis == 0) = false := by
    simp
    omega
  have hsub : usubUL cur s.autoFireStateMillis = cur - s.autoFireStateMillis :=
    usubUL_eq s.autoFireStateMillis cur hle hcur
  by_cases hr : rate ≤ cur - s.autoFireStateMillis
  · simp [fireButtonCycle, hup, haf, hne, hsub, hr]
  · simp [fireButtonCycle, hup, haf, hne, hsub, hr]

theorem chain_le_of_le {a b : Nat} {l : List Nat} (hab : a ≤ b)
    (h : List.Chain (· ≤ ·) b l) : List.Chain (· ≤ ·) a l := by
  cases l with
  | nil => exact List.Chain.nil
  | cons u l' =>
    rcases List.chain_cons.mp h with ⟨hbu, hu⟩
    exact List.chain_cons.mpr ⟨le_trans hab hbu, hu⟩

theorem fireButtonRun_steady (rate : Nat) :
    ∀ (ts : List Nat) (s : FireButton),
      s.fireIsUp = false → s.autoFire = true →
      s.line = s.autoFirePress → 0 < s.autoFireStateMillis →
      s.autoFireStateMillis < UINT32_MOD →
      (∀ t ∈ ts, t < UINT32_MOD) →
      List.Chain (· ≤ ·) s.autoFireStateMillis ts →
      (∀ k p q t,
        (s :: fireButtonRun rate s (ts.map fun t => (t, true))).get? k
            = some p →
        (s :: fireButtonRun rate s (ts.map fun t => (t, true))).get? (k + 1)
            = some q →
        ts.get? k = some t →
        q = if rate ≤ t - p.autoFireStateMillis
            then { p with
                autoFirePress := !p.autoFirePress,
                line := !p.autoFirePress,
                autoFireStateMillis := t }
            else p)
      ∧ (∀ p ∈ fireButtonRun rate s (ts.map fun t => (t, true)),
          p.line = p.autoFirePress ∧ 0 < p.autoFireStateMillis) := by
  intro ts
  induction ts with
  | nil =>
    intro s hup haf hlp hpos hbound hlt hchain
    constructor
    · intro k p q t hp hq ht
      simp at ht
    · intro p hp
      simp [fireButtonRun] at hp
  | cons t ts ih =>
    intro s hup haf hlp hpos hbound hlt hchain
    have hst : s.autoFireStateMillis ≤ t := (List.chain_cons.mp hchain).1
    have htM : t < UINT32_MOD := hlt t (by simp)
    have hstep := fireButtonCycle_steady rate t s hup haf hpos hst htM
    have hrun : fireButtonRun rate s (((t :: ts)).map fun u => (u, true))
        = (fireButtonCycle rate t true s).1
          :: fireButtonRun rate (fireButtonCycle rate t true s).1
            (ts.map fun u => (u, true)) := rfl
    have h1up : (fireButtonCycle rate t true s).1.fireIsUp = false := by
      rw [hstep]; split_ifs <;> exact hup
    have h1af : (fireButtonCycle rate t true s).1.autoFire = true := by
      rw [hstep]; split_ifs <;> exact haf
    have h1lp : (fireButtonCycle rate t true s).1.line
        = (fireButtonCycle rate t true s).1.autoFirePress := by
      rw [hstep]; split_ifs
      · rfl
      · exact hlp
    have h1pos : 0 < (fireButtonCycle rate t true s).1.autoFireStateMillis := by
      rw [hstep]; split_ifs
      · show 0 < t
        omega
      · exact hpos
    have h1bound : (fireButtonCycle rate t true s).1.autoFireStateMillis
        < UINT32_MOD := by
      rw [hstep]; split_ifs
      · exact htM
      · exact hbound
    have h1lt : ∀ u ∈ ts, u < UINT32_MOD := fun u hu => hlt u (by simp [hu])
    have h1chain : List.Chain (· ≤ ·)
        (fireButtonCycle rate t true s).1.autoFireStateMillis ts := by
      rw [hstep]; split_ifs
      · exact List.chain_of_chain_cons hchain
      · exact chain_le_of_le hst (List.chain_of_chain_cons hchain)
    have hsteady := ih (fireButtonCycle rate t true s).1 h1up h1af h1lp h1pos
      h1bound h1lt h1chain
    constructor
    · intro k p q u hp hq hu
      cases k with
      | zero =>
        have hps : s = p := Option.some.inj hp
        have htu : t = u := Option.some.inj hu
        have hqs : (fireButtonCycle rate t true s).1 = q := by
          rw [hrun] at hq
          exact Option.some.inj hq
        subst hps
        subst htu
        rw [← hqs, hstep]
      | succ k =>
        rw [hrun] at hp hq
        exact hsteady.1 k p q u hp hq hu
    · intro p hp
      rw [hrun] at hp
      rcases List.mem_cons.mp hp with rfl | hp
      · exact ⟨h1lp, h1pos⟩
      · exact hsteady.2 p hp

/-- Claim C6 counterexample: a fire signal first asserted while
`millis()` reads 0 stores 0 — the sentinel itself — as the timer, so on
the next cycle at `millis() = 50` (a full rate interval later, with
`autoFireRateMillis = 50`) the code re-enters the "autofire just
starting" branch instead of toggling: the phase stays `true` although
the claim requires it to toggle once at least the rate has elapsed since
the last toggle. -/
theorem autofire_zero_millis_cex :
    ((fireButtonRun 50 ⟨false, true, false, 0, false⟩
        [(0, true), (50, true)]).get? 0).map
          (fun s => (s.autoFirePress, s.autoFireStateMillis))
      = some (true, 0)
    ∧ ((fireButtonRun 50 ⟨false, true, false, 0, false⟩
        [(0, true), (50, true)]).get? 1).map (fun s => s.autoFirePress)
      = some true := by
  decide

/-- Claim C6 (amended): for a button not mapped to Up, with autofire
enabled, the timer at the zero sentinel, and the fire signal asserted on
every cycle of a trace of nondecreasing `millis()` values below `2 ^ 32`
whose first value is nonzero (a zero start value collides with the
sentinel and would repeat the start behaviour instead of toggling): the
first cycle drives the line asserted, sets the phase true and starts the
timer; each later cycle toggles the phase, the line and the timer exactly
when at least `autoFireRateMillis` milliseconds have elapsed since the
timer was last set (i.e. since the last toggle), and leaves the state —
including the line — unchanged otherwise; and throughout, the line equals
the phase and the timer never returns to the sentinel. -/
theorem autofire_oscillation (rate : Nat) (fb : FireButton) (t0 : Nat)
    (ts : List Nat) (hup : fb.fireIsUp = false) (haf : fb.autoFire = true)
    (hsent : fb.autoFireStateMillis = 0) (ht0 : 0 < t0)
    (hlt : ∀ t ∈ t0 :: ts, t < UINT32_MOD)
    (hmono : List.Chain (· ≤ ·) t0 ts) :
    (fireButtonRun rate fb ((t0 :: ts).map fun t => (t, true))).get? 0
        = some { fb with
            autoFireStateMillis := t0, autoFirePress := true, line := true }
    ∧ (∀ k p q t,
        (fireButtonRun rate fb ((t0 :: ts).map fun t => (t, true))).get? k
            = some p →
        (fireButtonRun rate fb ((t0 :: ts).map fun t => (t, true))).get? (k + 1)
            = some q →
        ts.get? k = some t →
        q = if rate ≤ t - p.autoFireStateMillis
            then { p with
                autoFirePress := !p.autoFirePress,
                line := !p.autoFirePress,
                autoFireStateMillis := t }
            else p)
    ∧ (∀ p ∈ fireButtonRun rate fb ((t0 :: ts).map fun t => (t, true)),
        p.line = p.autoFirePress ∧ 0 < p.autoFireStateMillis) := by
  have hstep0 : (fireButtonCycle rate t0 true fb).1
      = { fb with
          autoFireStateMillis := t0, autoFirePress := true, line := true } := by
    simp [fireButtonCycle, hup, haf, hsent]
  have hrun : fireButtonRun rate fb ((t0 :: ts).map fun t => (t, true))
      = (fireButtonCycle rate t0 true fb).1
        :: fireButtonRun rate (fireButtonCycle rate t0 true fb).1
          (ts.map fun t => (t, true)) := rfl
  have h0up : (fireButtonCycle rate t0 true fb).1.fireIsUp = false := by
    rw [hstep0]; exact hup
  have h0af : (fireButtonCycle rate t0 true fb).1.autoFire = true := by
    rw [hstep0]; exact haf
  have h0lp : (fireButtonCycle rate t0 true fb).1.line
      = (fireButtonCycle rate t0 true fb).1.autoFirePress := by
    rw [hstep0]
  have h0pos : 0 < (fireButtonCycle rate t0 true fb).1.autoFireStateMillis := by
    rw [hstep0]; exact ht0
  have h0bound : (fireButtonCycle rate t0 true fb).1.autoFireStateMillis
      < UINT32_MOD := by
    rw [hstep0]; exact hlt t0 (by simp)
  have h0chain : List.Chain (· ≤ ·)
      (fireButtonCycle rate t0 true fb).1.autoFireStateMillis ts := by
    rw [hstep0]; exact hmono
  have hsteady := fireButtonRun_steady rate ts (fireButtonCycle rate t0 true fb).1
    h0up h0af h0lp h0pos h0bound (fun u hu => hlt u (by simp [hu])) h0chain
  refine ⟨?_, ?_, ?_⟩
  · rw [hrun, ← hstep0]
    rfl
  · intro k p q t hp hq ht
    rw [hrun] at hp hq
    exact hsteady.1 k p q t hp hq ht
  · intro p hp
    rw [hrun] at hp
    rcases List.mem_cons.mp hp with rfl | hp
    · exact ⟨h0lp, h0pos⟩
    · exact hsteady.2 p hp

/-- Witness for amended claim C6: three asserted cycles at millis 10, 40,
60 with rate 50 start asserted with the timer at 10. -/
theorem autofire_oscillation_witness :
    (fireButtonRun 50 ⟨false, true, false, 0, false⟩
        ([10, 40, 60].map fun t => (t, true))).get? 0
      = some { fireIsUp := false, autoFire := true, autoFirePress := true,
               autoFireStateMillis := 10, line := true } :=
  (autofire_oscillation 50 ⟨false, true, false, 0, false⟩ 10 [40, 60]
    rfl rfl rfl (by decide) (by decide)
    (List.Chain.cons (by norm_num)
      (List.Chain.cons (by norm_num) List.Chain.nil))).1

/-!
## Joystick port selection

`setJoyPort()` swaps the six active output pin identifiers and the
indicator LED, then writes the selected port to the EEPROM only when it
differs from the current one.  EEPROM writes are recorded as a list of
(address, value) pairs.
-/

structure JoyPortState where
  joyFire1 : Nat
  joyFire2 : Nat
  joyUp : Nat
  joyDown : Nat
  joyLeft : Nat
  joyRight : Nat
  currentJoyLED : Nat
  currentJoyPort : Nat
  led0 : Bool
  led1 : Bool
  eepromWrites : List (Nat × Nat)
deriving DecidableEq

def setJoyPort (st : JoyPortState) (joyPort : Nat) : JoyPortState :=
  let st :=
    if joyPort == 0 then
      { st with
        joyFire1 := JOY1_FIRE1, joyFire2 := JOY1_FIRE2,
        joyUp := JOY1_UP, joyDown := JOY1_DOWN,
        joyLeft := JOY1_LEFT, joyRight := JOY1_RIGHT,
        led0 := true, led1 := false, currentJoyLED := JOYPORT_0_LED }
    else
      { st with
        joyFire1 := JOY2_FIRE1, joyFire2 := JOY2_FIRE2,
        joyUp := JOY2_UP, joyDown := JOY2_DOWN,
        joyLeft := JOY2_LEFT, joyRight := JOY2_RIGHT,
        led0 := false, led1 := true, currentJoyLED := JOYPORT_1_LED }
  -- Ensure it is normalized as 0 or 1, then avoid unnecessary EEPROM writes
  let joyPort := if joyPort == 0 then 0 else 1
  if st.currentJoyPort ≠ joyPort then
    { st with
      currentJoyPort := joyPort,
      eepromWrites := st.eepromWrites ++ [(SETTING_JOYPORT, joyPort)] }
  else st

/-- Claim C8: selecting the already-active port performs no EEPROM write;
selecting the other port appends exactly one EEPROM write; and either way
the call installs all six output pin identifiers and the indicator LED of
the selected port, which subsequent cycles then use. -/
theorem set_joyport_writes (st : JoyPortState) (p : Nat)
    (hcur : st.currentJoyPort = 0 ∨ st.currentJoyPort = 1)
    (hp : p = 0 ∨ p = 1) :
    ((setJoyPort st p).eepromWrites
        = if p = st.currentJoyPort then st.eepromWrites
          else st.eepromWrites ++ [(SETTING_JOYPORT, p)])
    ∧ (setJoyPort st p).currentJoyPort = p
    ∧ ((setJoyPort st p).joyUp, (setJoyPort st p).joyDown,
        (setJoyPort st p).joyLeft, (setJoyPort st p).joyRight,
        (setJoyPort st p).joyFire1, (setJoyPort st p).joyFire2,
        (setJoyPort st p).currentJoyLED)
      = if p = 0
        then (JOY1_UP, JOY1_DOWN, JOY1_LEFT, JOY1_RIGHT, JOY1_FIRE1,
          JOY1_FIRE2, JOYPORT_0_LED)
        else (JOY2_UP, JOY2_DOWN, JOY2_LEFT, JOY2_RIGHT, JOY2_FIRE1,
          JOY2_FIRE2, JOYPORT_1_LED) := by
  rcases hp with rfl | rfl <;> rcases hcur with h | h <;>
    simp [setJoyPort, h]

/-- Witness for claim C8: switching from port 0 to port 1 appends one
write and installs port 1's pins. -/
theorem set_joyport_writes_witness :
    (setJoyPort ⟨0, 0, 0, 0, 0, 0, 0, 0, false, false, []⟩ 1).eepromWrites
        = (if (1 : Nat) = 0 then ([] : List (Nat × Nat))
          else [] ++ [(SETTING_JOYPORT, 1)])
    ∧ (setJoyPort ⟨0, 0, 0, 0, 0, 0, 0, 0, false, false, []⟩ 1).currentJoyPort
        = 1 :=
  ⟨((set_joyport_writes ⟨0, 0, 0, 0, 0, 0, 0, 0, false, false, []⟩ 1
      (Or.inl rfl) (Or.inr rfl)).1).trans (by norm_num),
    (set_joyport_writes ⟨0, 0, 0, 0, 0, 0, 0, 0, false, false, []⟩ 1
      (Or.inl rfl) (Or.inr rfl)).2.1⟩

/-- Claim C9 counterexample: in mouse mode with the horizontal magnitude
at the threshold (not above it), the claim demands that neither Left nor
Right be asserted; but the decoder then leaves `nesLeft`/`nesRight` at the
values of the raw report's baseline Left/Right bits ($06/$07), so a stream
whose bit $06 reads true drives the Left line asserted. -/
theorem mouse_below_threshold_cex :
    (nesReadButtons (fun i => i == 6 || i == 15) false idleDecoded).snesMouse
        = true
    ∧ (nesReadButtons (fun i => i == 6 || i == 15) false
          idleDecoded).mouseDX ≤ MOUSE_MOVEMENT_THRESHOLD
    ∧ (outputStage 50 100
        (nesReadButtons (fun i => i == 6 || i == 15) false idleDecoded)
        ⟨false, false, false, 0, false⟩
        ⟨false, false, false, 0, false⟩).2.2.left = true := by
  decide

/-- Claim C9 (amended): in mouse mode, when the horizontal magnitude
exceeds `MOUSE_MOVEMENT_THRESHOLD`, the Left line is asserted and the
Right line released exactly per the direction bit (1 = left); when the
magnitude is at or below the threshold, the motion fields do not touch
Left/Right, which instead keep the raw report's baseline Left/Right bits
($06/$07) — for a conforming mouse, which reports those bits released,
neither line asserts. -/
theorem mouse_motion_to_direction (rate cur : Nat) (bits : Nat → Bool)
    (fireReversed : Bool) (prev : DecodedState) (fb0 fb1 : FireButton)
    (h12 : bits 12 = false) (h13 : bits 13 = false) (h14 : bits 14 = false)
    (h15 : bits 15 = true) :
    (outputStage rate cur (nesReadButtons bits fireReversed prev)
        fb0 fb1).2.2.left
      = (if MOUSE_MOVEMENT_THRESHOLD
            < (nesReadButtons bits fireReversed prev).mouseDX
        then (nesReadButtons bits fireReversed prev).mouseDirX
        else bits 6)
    ∧ (outputStage rate cur (nesReadButtons bits fireReversed prev)
        fb0 fb1).2.2.right
      = (if MOUSE_MOVEMENT_THRESHOLD
            < (nesReadButtons bits fireReversed prev).mouseDX
        then !(nesReadButtons bits fireReversed prev).mouseDirX
        else bits 7) := by
  constructor <;>
    simp [outputStage, nesReadButtons, h12, h13, h14, h15]

/-- Witness for amended claim C9: an idle mouse stream asserts neither
Left nor Right. -/
theorem mouse_motion_to_direction_witness :
    (outputStage 50 100
        (nesReadButtons (fun i => i == 15) false idleDecoded)
        ⟨false, false, false, 0, false⟩
        ⟨false, false, false, 0, false⟩).2.2.left
      = (if MOUSE_MOVEMENT_THRESHOLD
            < (nesReadButtons (fun i => i == 15) false idleDecoded).mouseDX
        then (nesReadButtons (fun i => i == 15) false idleDecoded).mouseDirX
        else (fun i : Nat => i == 15) 6) :=
  (mouse_motion_to_direction 50 100 (fun i => i == 15) false idleDecoded
    ⟨false, false, false, 0, false⟩ ⟨false, false, false, 0, false⟩
    rfl rfl rfl rfl).1

theorem mouse_forces_false (bits : Nat → Bool) (fireReversed : Bool)
    (prev : DecodedState) (h12 : bits 12 = false) (h13 : bits 13 = false)
    (h14 : bits 14 = false) (h15 : bits 15 = true) :
    (nesReadButtons bits fireReversed prev).nesSelect = false
    ∧ (nesReadButtons bits fireReversed prev).nesStart = false
    ∧ (nesReadButtons bits fireReversed prev).snesL = false
    ∧ (nesReadButtons bits fireReversed prev).snesR = false := by
  simp [nesReadButtons, h12, h13, h14, h15]

theorem settingCombos_unsat (d : DecodedState) (hstart : d.nesStart = false)
    (hsel : d.nesSelect = false) :
    ∀ p ∈ settingCombos, comboSatisfied p.1 d = false := by
  intro p hp
  simp only [settingCombos, List.mem_cons, List.not_mem_nil, or_false] at hp
  rcases hp with rfl | rfl | rfl | rfl | rfl | rfl | rfl | rfl <;>
    simp [comboSatisfied, hstart, hsel]

theorem scanCombos_all_unsat (d : DecodedState) :
    ∀ l : List (SettingCombo × Bool),
      (∀ p ∈ l, comboSatisfied p.1 d = false ∧ p.2 = false) →
      (scanCombos d l).1 = l.map (fun p => (p, false)) := by
  intro l
  induction l with
  | nil => intro h; rfl
  | cons e tl ih =>
    obtain ⟨c, a⟩ := e
    intro h
    have hhead := h (c, a) (by simp)
    have ha : a = false := hhead.2
    subst ha
    simp [scanCombos, hhead.1, ih (fun p hp => h p (by simp [hp]))]

theorem newCombos_map_id (l : List (SettingCombo × Bool)) :
    newCombos (l.map fun p => (p, false)) = l := by
  induction l with
  | nil => rfl
  | cons e tl ih => simp [newCombos] at ih ⊢; exact ih

theorem firedFlags_map_false (l : List (SettingCombo × Bool)) :
    ∀ j, ((firedFlags (l.map fun p => (p, false))).get? j).getD false
      = false := by
  induction l with
  | nil => intro j; rfl
  | cons e tl ih =>
    intro j
    cases j with
    | zero => rfl
    | succ j => exact ih j

theorem runCombos_never_fires (t : List (SettingCombo × Bool))
    (harm : ∀ p ∈ t, p.2 = false) :
    ∀ ds : List DecodedState,
      (∀ d ∈ ds, ∀ p ∈ t, comboSatisfied p.1 d = false) →
      ∀ k j, firedAt (runCombos t ds) k j = false := by
  intro ds
  induction ds with
  | nil => intro h k j; rfl
  | cons d ds ih =>
    intro h k j
    have hsc : (scanCombos d t).1 = t.map (fun p => (p, false)) :=
      scanCombos_all_unsat d t (fun p hp => ⟨h d (by simp) p hp, harm p hp⟩)
    cases k with
    | zero =>
      show ((firedFlags (scanCombos d t).1).get? j).getD false = false
      rw [hsc]
      exact firedFlags_map_false t j
    | succ k =>
      show firedAt (runCombos (newCombos (scanCombos d t).1) ds) k j = false
      rw [hsc, newCombos_map_id]
      exact ih (fun e he => h e (by simp [he])) k j

/-- Claim C10 counterexample: a gesture armed on a pad cycle before the
mouse appears fires on a mouse cycle: holding Start+Up on a NES pad arms
the first gesture, and on the next cycle — a mouse cycle, whose decoded
state has `snesMouse = true` — that gesture's action fires, although the
claim says no settings gesture can ever fire while a mouse is
connected. -/
theorem mouse_mode_stale_armed_cex :
    (nesReadButtons (fun i => i == 15) false idleDecoded).snesMouse = true
    ∧ firedAt (runCombos settingCombos
        [padStartUp, nesReadButtons (fun i => i == 15) false idleDecoded])
        1 0 = true := by
  decide

/-- Claim C10 (amended): a mouse-mode decode forces the logical Select,
Start, snesL and snesR signals false; hence over any sequence of
mouse-mode cycles starting with every gesture disarmed — disarmed is the
state unless a gesture's chord was being held on an earlier pad cycle —
no settings gesture ever becomes armed or fires, and the Left/Right
output lines carry no contribution from the SNES L/R buttons. -/
theorem mouse_mode_blocks_gestures (ds : List DecodedState)
    (hds : ∀ d ∈ ds, ∃ (bits : Nat → Bool) (fr : Bool) (prev : DecodedState),
      bits 12 = false ∧ bits 13 = false ∧ bits 14 = false ∧ bits 15 = true
      ∧ d = nesReadButtons bits fr prev) :
    (∀ d ∈ ds, d.nesSelect = false ∧ d.nesStart = false ∧ d.snesL = false
      ∧ d.snesR = false)
    ∧ (∀ k j, firedAt (runCombos settingCombos ds) k j = false)
    ∧ (∀ d ∈ ds, (d.nesLeft || d.snesL) = d.nesLeft
        ∧ (d.nesRight || d.snesR) = d.nesRight) := by
  have hforced : ∀ d ∈ ds, d.nesSelect = false ∧ d.nesStart = false
      ∧ d.snesL = false ∧ d.snesR = false := by
    intro d hd
    obtain ⟨bits, fr, prev, h12, h13, h14, h15, rfl⟩ := hds d hd
    exact mouse_forces_false bits fr prev h12 h13 h14 h15
  refine ⟨hforced, ?_, ?_⟩
  · have harm : ∀ p ∈ settingCombos, p.2 = false := by
      intro p hp
      simp only [settingCombos, List.mem_cons, List.not_mem_nil, or_false]
        at hp
      rcases hp with rfl | rfl | rfl | rfl | rfl | rfl | rfl | rfl <;> rfl
    exact runCombos_never_fires settingCombos harm ds
      (fun d hd => settingCombos_unsat d (hforced d hd).2.1 (hforced d hd).1)
  · intro d hd
    rw [(hforced d hd).2.2.1, (hforced d hd).2.2.2]
    simp

/-- Witness for amended claim C10: with one idle mouse cycle, no gesture
fires on cycle 0 of the combo scan (position 0 checked). -/
theorem mouse_mode_blocks_gestures_witness :
    firedAt (runCombos settingCombos
        [nesReadButtons (fun i => i == 15) false idleDecoded]) 0 0 = false :=
  (mouse_mode_blocks_gestures
    [nesReadButtons (fun i => i == 15) false idleDecoded]
    (by
      intro d hd
      rw [List.mem_singleton] at hd
      subst hd
      exact ⟨fun i => i == 15, false, idleDecoded, rfl, rfl, rfl, rfl, rfl⟩)).2.1
    0 0

end NesToC64
